import Mathlib

/-!
Verification of the ReMaster auth service core (Go) against its natural-language
specification, via a shallow embedding in Lean 4.

Sources embedded:
- services/auth/services/service.go        (AuthService: CreateUser, AuthenticateUser,
                                            OAuthLogin, RefreshToken, Logout, ...)
- services/auth/repositories (authRepositoryImpl: Create, GetByEmail, GetByID,
                                            SaveRefreshToken, FindRefreshToken,
                                            RevokeRefreshToken, IncrementLoginAttempts,
                                            ResetLoginAttempts, LockUserAccount,
                                            UpdateLoginInfo, UpdatePassword)
- shared/errors (AppError, factory functions, ErrorHandler.mapToGrpcCode, logError)
- services/auth/utils/jwt.go               (JWTUtils)
- services/auth/models                     (User, RefreshToken, BeforeCreate, requests)

Modelling conventions:
- Machine time is an integer number of seconds (Go time.Time compared with
  Before/After becomes integer <, >); Go durations are seconds
  (15 * time.Minute = 900).
- The MongoDB store is a pair of lists (users, refresh tokens) in insertion
  order; FindOne returns the first match, UpdateOne / UpdateByID /
  FindOneAndUpdate update the first match with the given filter.
- bcrypt is modelled as an ideal one-way digest: CompareHashAndPassword
  succeeds exactly when the digest was produced from the compared password.
- The HS256-signed JWT is modelled as its claims plus the signing key it was
  produced with; signature verification succeeds exactly when the validating
  key equals the signing key (ideal MAC).
- crypto/rand bytes and freshly generated ObjectIDs are passed in as explicit
  parameters (the Go code draws them from a generator).
-/

set_option autoImplicit false

namespace ReMaster

/-- Unix time in seconds (Go time.Time under Before/After comparisons). -/
abbrev Time := Int

/-- Go: MaxLoginAttempts = 5 (service.go). -/
def maxLoginAttempts : Int := 5

/-- Go: LockoutDuration = 15 * time.Minute, in seconds (service.go). -/
def lockoutDuration : Time := 900

/- ## shared/errors: error taxonomy (AppError version used by service.go,
      which calls the two-argument NewNotFoundError and NewPermissionError) -/

/-- Go: ErrorType is an int enum built with iota (shared/errors). -/
abbrev ErrorType := Nat

def ErrorTypeValidation : ErrorType := 0
def ErrorTypeNotFound : ErrorType := 1
def ErrorTypeConflict : ErrorType := 2
def ErrorTypeUnauthorized : ErrorType := 3
def ErrorTypeForbidden : ErrorType := 4
def ErrorTypeBadRequest : ErrorType := 5
def ErrorTypeRateLimit : ErrorType := 6
def ErrorTypeInternal : ErrorType := 7
def ErrorTypeDatabase : ErrorType := 8

/-- Go: shared/errors.AppError (the Cause chain is not modelled; the
    user-visible message sent over gRPC is the Message field alone). -/
structure AppError where
  etype : ErrorType
  code : String
  message : String
  statusCode : Nat
  details : List (String × String)
  deriving Repr, DecidableEq

def newValidationError (msg : String) (details : List (String × String)) : AppError :=
  ⟨ErrorTypeValidation, "VALIDATION_ERROR", msg, 400, details⟩

def newConflictError (msg : String) : AppError :=
  ⟨ErrorTypeConflict, "CONFLICT_ERROR", msg, 409, []⟩

def newDatabaseError (msg : String) : AppError :=
  ⟨ErrorTypeDatabase, "DATABASE_ERROR", msg, 500, []⟩

def newInternalError (msg : String) : AppError :=
  ⟨ErrorTypeInternal, "INTERNAL_ERROR", msg, 500, []⟩

def newNotFoundError (msg : String) : AppError :=
  ⟨ErrorTypeNotFound, "NOT_FOUND", msg, 404, []⟩

def newUnauthorizedError (msg : String) : AppError :=
  ⟨ErrorTypeUnauthorized, "UNAUTHORIZED", msg, 401, []⟩

def newForbiddenError (msg : String) : AppError :=
  ⟨ErrorTypeForbidden, "FORBIDDEN", msg, 403, []⟩

def newBadRequestError (msg : String) : AppError :=
  ⟨ErrorTypeBadRequest, "BAD_REQUEST", msg, 400, []⟩

def newRateLimitError (msg : String) : AppError :=
  ⟨ErrorTypeRateLimit, "RATE_LIMIT_EXCEEDED", msg, 429, []⟩

def newPermissionError (msg : String) : AppError :=
  ⟨ErrorTypeForbidden, "PERMISSION_ERROR", msg, 403, []⟩

/-- Go: google.golang.org/grpc/codes used by the error handler. -/
inductive GrpcCode where
  | invalidArgument
  | notFound
  | alreadyExists
  | unauthenticated
  | permissionDenied
  | resourceExhausted
  | internal
  deriving Repr, DecidableEq

/-- Go: ErrorHandler.mapToGrpcCode (shared/errors/handlers.go): a switch on the
    ErrorType int with a default arm returning codes.Internal. -/
def mapToGrpcCode (t : ErrorType) : GrpcCode :=
  if t = ErrorTypeValidation then .invalidArgument
  else if t = ErrorTypeNotFound then .notFound
  else if t = ErrorTypeConflict then .alreadyExists
  else if t = ErrorTypeUnauthorized then .unauthenticated
  else if t = ErrorTypeForbidden then .permissionDenied
  else if t = ErrorTypeBadRequest then .invalidArgument
  else if t = ErrorTypeRateLimit then .resourceExhausted
  else if t = ErrorTypeDatabase then .internal
  else .internal

inductive LogLevel where
  | warn
  | error
  deriving Repr, DecidableEq

/-- Go: ErrorHandler.logError (shared/errors/handlers.go): an AppError is
    logged at slog.LevelError when its Type is Internal or Database,
    otherwise at slog.LevelWarn. -/
def logSeverity (t : ErrorType) : LogLevel :=
  if t = ErrorTypeInternal ∨ t = ErrorTypeDatabase then .error else .warn

/- ## Cryptographic primitives (ideal models) -/

/-- Abstract model of bcrypt.GenerateFromPassword at BcryptCost = 12: an
    injective one-way digest (the salt is irrelevant to the verified
    claims, so the digest is modelled deterministically). -/
def bcryptHash (password : String) : String :=
  "bcrypt-cost12:" ++ password

/-- Abstract model of bcrypt.CompareHashAndPassword: succeeds exactly when
    the digest was produced from the compared password. -/
def bcryptCompare (digest password : String) : Bool :=
  digest == bcryptHash password

/-- Go: utils.CustomClaims (jwt.go): the claims carried by an access token. -/
structure CustomClaims where
  userID : String
  email : String
  userType : String
  expiresAt : Time
  issuedAt : Time
  deriving Repr, DecidableEq

/-- Ideal model of an HS256-signed JWT: the claims together with the key the
    token was signed with; signature verification succeeds exactly when the
    validating key equals the signing key. -/
structure SignedToken where
  claims : CustomClaims
  signedWith : String
  deriving Repr, DecidableEq

/-- Go: utils.JWTUtils (jwt.go); the TTLs are in seconds. -/
structure JWTUtils where
  secretKey : String
  accessTokenTTL : Time
  refreshTokenTTL : Time
  deriving Repr, DecidableEq

/-- Go: JWTUtils.GenerateAccessToken (jwt.go): signs claims carrying the
    subject id, email and user type, with ExpiresAt = now + AccessTokenTTL
    and IssuedAt = now, under the configured secret key. -/
def generateAccessToken (j : JWTUtils) (now : Time) (userID email userType : String) :
    SignedToken :=
  ⟨⟨userID, email, userType, now + j.accessTokenTTL, now⟩, j.secretKey⟩

/-- Go: JWTUtils.ValidateAccessToken (jwt.go): jwt.ParseWithClaims verifies
    the HS256 signature against the configured secret and validates the
    registered ExpiresAt claim (valid while now is strictly before expiry). -/
def validateAccessToken (j : JWTUtils) (now : Time) (tok : SignedToken) :
    Except String CustomClaims :=
  if tok.signedWith ≠ j.secretKey then .error "token signature is invalid"
  else if ¬ now < tok.claims.expiresAt then .error "token is expired"
  else .ok tok.claims

def hexDigitChar (n : Nat) : Char :=
  if n < 10 then Char.ofNat (48 + n) else Char.ofNat (87 + n)

/-- Lower-case hex encoding of a byte list (Go encoding/hex.EncodeToString). -/
def hexChars : List Nat → List Char
  | [] => []
  | b :: bs => hexDigitChar (b / 16) :: hexDigitChar (b % 16) :: hexChars bs

/-- Go: JWTUtils.GenerateRefreshToken (jwt.go): hex encoding of 32 bytes from
    crypto/rand (the random bytes are an explicit parameter of the model). -/
def generateRefreshToken (randomBytes : List Nat) : String :=
  String.mk (hexChars randomBytes)

def isMongoHexDigit (c : Char) : Bool :=
  (Char.ofNat 48 ≤ c && c ≤ Char.ofNat 57) ||
  (Char.ofNat 97 ≤ c && c ≤ Char.ofNat 102) ||
  (Char.ofNat 65 ≤ c && c ≤ Char.ofNat 70)

/-- Go: primitive.ObjectIDFromHex (mongo driver): fails with ErrInvalidHex
    unless the string is exactly 24 characters of hex. -/
def objectIDFromHex (s : String) : Option String :=
  if s.length == 24 && s.data.all isMongoHexDigit then some s else none

/- ## Data model (services/auth/models) -/

/-- Go: models.User. The zero ObjectID is modelled as the empty string. -/
structure UserRec where
  id : String
  email : String
  password : String
  firstName : String
  lastName : String
  phone : String
  userType : String
  profileImage : String
  isActive : Bool
  isVerified : Bool
  createdAt : Time
  updatedAt : Time
  lastLoginAt : Option Time
  loginAttempts : Int
  lastLoginIP : String
  passwordChangeAt : Time
  lockedUntil : Option Time
  deriving Repr, DecidableEq

/-- Go: models.RefreshToken. -/
structure RefreshTokenRec where
  id : String
  userId : String
  token : String
  expiresAt : Time
  createdAt : Time
  isRevoked : Bool
  deviceId : String
  userAgent : String
  ip : String
  deriving Repr, DecidableEq

/-- The MongoDB collections touched by the auth repository, in insertion
    order (FindOne returns the first match). -/
structure Store where
  users : List UserRec
  refreshTokens : List RefreshTokenRec
  deriving Repr, DecidableEq

/-- Go: models.RequestMetadata. -/
structure RequestMetadata where
  userAgent : String
  ipAddress : String
  deviceID : String
  deriving Repr, DecidableEq

/-- Go: models.UserResponse, restricted to the fields the verified claims
    mention (User.ToResponse). -/
structure UserView where
  id : String
  email : String
  isActive : Bool
  isVerified : Bool
  deriving Repr, DecidableEq

def UserRec.toResponse (u : UserRec) : UserView :=
  ⟨u.id, u.email, u.isActive, u.isVerified⟩

/-- Go: models.AuthResponse. -/
structure AuthResponse where
  user : UserView
  accessToken : SignedToken
  refreshToken : String
  expiresAt : Time
  tokenType : String
  deriving Repr, DecidableEq

/-- Go: models.RefreshTokenResponse. -/
structure RefreshTokenResponse where
  accessToken : SignedToken
  refreshToken : String
  expiresAt : Time
  deriving Repr, DecidableEq

/-- Go: oauth claims normalized across providers (GoogleClaims shape used by
    AuthService.OAuthLogin). -/
structure OAuthClaims where
  email : String
  firstName : String
  lastName : String
  picture : String
  deriving Repr, DecidableEq

/- ## Repository (services/auth/repositories/auth_repository.go) -/

/-- UpdateByID / UpdateOne on the users collection: rewrite the first
    document whose _id matches. -/
def updateFirstUser (uid : String) (f : UserRec → UserRec) : List UserRec → List UserRec
  | [] => []
  | u :: rest =>
    if u.id == uid then f u :: rest else u :: updateFirstUser uid f rest

/-- UpdateOne with set is_revoked = true on the refresh tokens collection:
    rewrite the first document whose _id matches. -/
def revokeFirstToken (tid : String) : List RefreshTokenRec → List RefreshTokenRec
  | [] => []
  | rt :: rest =>
    if rt.id == tid then { rt with isRevoked := true } :: rest
    else rt :: revokeFirstToken tid rest

/-- Go: authRepositoryImpl.GetByEmail: FindOne on email; a missing document
    surfaces as mongo.ErrNoDocuments (modelled as none). -/
def getByEmail (s : Store) (email : String) : Option UserRec :=
  s.users.find? (fun u => u.email == email)

/-- Go: authRepositoryImpl.GetByID. -/
def getByID (s : Store) (uid : String) : Option UserRec :=
  s.users.find? (fun u => u.id == uid)

/-- Go: models.User.BeforeCreate, called by authRepositoryImpl.Create before
    InsertOne: unconditionally overwrites the timestamps, the active and
    verified flags and the login-attempt counter, and assigns a fresh
    ObjectID when the id is zero. -/
def beforeCreate (now : Time) (newId : String) (u : UserRec) : UserRec :=
  { u with
    createdAt := now
    updatedAt := now
    passwordChangeAt := now
    isActive := true
    isVerified := false
    loginAttempts := 0
    id := if u.id = "" then newId else u.id }

/-- Go: authRepositoryImpl.Create: BeforeCreate, then InsertOne; the unique
    index on email turns a duplicate insert into a Conflict error. -/
def create (s : Store) (now : Time) (newId : String) (u : UserRec) :
    Except AppError Store :=
  let v := beforeCreate now newId u
  if s.users.any (fun w => w.email == v.email) then
    .error (newConflictError ("user with email " ++ v.email ++ " already exists"))
  else
    .ok { s with users := s.users ++ [v] }

/-- Go: authRepositoryImpl.SaveRefreshToken: assigns a fresh ObjectID and
    InsertOne. -/
def saveRefreshToken (s : Store) (newId : String) (t : RefreshTokenRec) : Store :=
  { s with refreshTokens := s.refreshTokens ++ [{ t with id := newId }] }

/-- Go: authRepositoryImpl.FindRefreshToken: FindOne on the token value;
    absence is an Unauthorized error, not a lookup failure. -/
def findRefreshToken (s : Store) (tok : String) : Except AppError RefreshTokenRec :=
  match s.refreshTokens.find? (fun r => r.token == tok) with
  | some rt => .ok rt
  | none => .error (newUnauthorizedError "refresh token not found")

/-- Go: authRepositoryImpl.RevokeRefreshToken: UpdateOne on _id with
    set is_revoked = true. -/
def revokeRefreshToken (s : Store) (tid : String) : Store :=
  { s with refreshTokens := revokeFirstToken tid s.refreshTokens }

/-- Go: authRepositoryImpl.IncrementLoginAttempts: FindOneAndUpdate with
    inc login_attempts = 1 and ReturnDocument(After) — a single atomic
    increment-and-return primitive of the store. Returns none (decode
    error) when no document matches. -/
def incrementLoginAttempts (s : Store) (uid : String) : Option Int × Store :=
  match s.users.find? (fun u => u.id == uid) with
  | none => (none, s)
  | some u =>
    (some (u.loginAttempts + 1),
     { s with
       users := updateFirstUser uid
         (fun v => { v with loginAttempts := v.loginAttempts + 1 }) s.users })

/-- Go: authRepositoryImpl.ResetLoginAttempts: UpdateByID with
    set login_attempts = 0 and unset locked_until. -/
def resetLoginAttempts (s : Store) (uid : String) : Store :=
  { s with
    users := updateFirstUser uid
      (fun u => { u with loginAttempts := 0, lockedUntil := none }) s.users }

/-- Go: authRepositoryImpl.LockUserAccount: UpdateByID with
    set locked_until = now + duration. -/
def lockUserAccount (s : Store) (uid : String) (now : Time) (duration : Time) : Store :=
  { s with
    users := updateFirstUser uid
      (fun u => { u with lockedUntil := some (now + duration) }) s.users }

/-- Go: authRepositoryImpl.UpdateLoginInfo: UpdateByID with
    set last_login_at = now, last_login_ip = ip. -/
def updateLoginInfo (s : Store) (uid : String) (now : Time) (ip : String) : Store :=
  { s with
    users := updateFirstUser uid
      (fun u => { u with lastLoginAt := some now, lastLoginIP := ip }) s.users }

/-- Go: authRepositoryImpl.UpdatePassword: UpdateOne on _id with
    set password = hash. -/
def updatePassword (s : Store) (uid : String) (hash : String) : Store :=
  { s with
    users := updateFirstUser uid (fun u => { u with password := hash }) s.users }

/- ## Retry policy around the user-creation persistence step
      (service.go: backoff.Retry(op, backoff.WithMaxRetries(NewExponentialBackOff(), 3))) -/

/-- Go: the loop inside backoff.Retry (cenkalti/backoff/v4) specialised to the
    WithMaxRetries wrapper: run the operation; on a nil error stop; otherwise
    ask the wrapper for the next delay, which is Stop once the wrapped counter
    has already handed out maxRetries delays, and retry. No operation here
    wraps its error in backoff.Permanent, so every error is retried alike.
    The ExponentialBackOff delegate (initial interval 0.5 s, max elapsed time
    15 min) cannot reach Stop before the 3-delay cap, so the wrapper alone
    decides termination. Returns the final error (none on success) and the
    number of invocations of the operation; the invocation index is passed
    to the operation so distinct attempts may behave differently. -/
def retryGo (op : Nat → Option AppError) (i : Nat) : Nat → Option AppError × Nat
  | 0 =>
    match op i with
    | none => (none, i + 1)
    | some e => (some e, i + 1)
  | r + 1 =>
    match op i with
    | none => (none, i + 1)
    | some _ => retryGo op (i + 1) r

/-- Go: service.go CreateUser persists the user under
    backoff.Retry(repo.Create, WithMaxRetries(NewExponentialBackOff(), 3)):
    the initial attempt plus at most 3 retries. -/
def createWithRetry (op : Nat → Option AppError) : Option AppError × Nat :=
  retryGo op 0 3

/- ## Orchestrator (services/auth/services/service.go) -/

/-- Whether the account lock is active: Go,
    user.LockedUntil != nil && time.Now().Before(user.LockedUntil). -/
def lockActive (u : UserRec) (now : Time) : Bool :=
  match u.lockedUntil with
  | some t => decide (now < t)
  | none => false

/-- Go: AuthService.AuthenticateUser (service.go). The fresh refresh-token
    value and the fresh ObjectID for the saved token document are explicit
    parameters. Returns the response-or-error together with the store the
    call leaves behind. -/
def authenticateUser (j : JWTUtils) (s : Store) (now : Time) (email pw : String)
    (meta : RequestMetadata) (freshRefresh newTokId : String) :
    Except AppError AuthResponse × Store :=
  match getByEmail s email with
  | none => (.error (newUnauthorizedError "invalid email or password"), s)
  | some user =>
    if lockActive user now then
      (.error (newPermissionError "account is locked, please try again later"), s)
    else if bcryptCompare user.password pw = false then
      -- attempts, _ := repo.IncrementLoginAttempts(...): the error is ignored
      -- and the Go zero value 0 is used in its place
      let r := incrementLoginAttempts s user.id
      let attempts := r.1.getD 0
      let s2 :=
        if attempts ≥ maxLoginAttempts then
          lockUserAccount r.2 user.id now lockoutDuration
        else r.2
      (.error (newUnauthorizedError "invalid email or password"), s2)
    else
      let s1 := if user.loginAttempts > 0 then resetLoginAttempts s user.id else s
      let s2 := updateLoginInfo s1 user.id now meta.ipAddress
      let access := generateAccessToken j now user.id user.email user.userType
      let s3 := saveRefreshToken s2 newTokId
        { id := ""
          userId := user.id
          token := freshRefresh
          expiresAt := now + j.refreshTokenTTL
          createdAt := now
          isRevoked := false
          deviceId := meta.deviceID
          userAgent := meta.userAgent
          ip := meta.ipAddress }
      (.ok
        { user := user.toResponse
          accessToken := access
          refreshToken := freshRefresh
          expiresAt := now + j.accessTokenTTL
          tokenType := "Bearer" }, s3)

/-- Go: AuthService.OAuthLogin (service.go). The provider verification is an
    external HTTPS call, so its outcome (normalized claims or a failure
    message) is a parameter; the fresh ObjectIDs and refresh-token value are
    parameters as in the other operations. Note that repo.Create mutates the
    user through the pointer (BeforeCreate), so the tokens and the response
    are built from the mutated record. -/
def oauthLogin (j : JWTUtils) (s : Store) (now : Time)
    (verified : Except String OAuthClaims) (meta : RequestMetadata)
    (newUserId freshRefresh newTokId : String) :
    Except AppError AuthResponse × Store :=
  match verified with
  | .error msg => (.error (newUnauthorizedError msg), s)
  | .ok claims =>
    match getByEmail s claims.email with
    | none =>
      let u0 : UserRec :=
        { id := ""
          email := claims.email
          password := ""
          firstName := claims.firstName
          lastName := claims.lastName
          phone := ""
          userType := "client"
          profileImage := claims.picture
          isActive := true
          isVerified := true
          createdAt := 0
          updatedAt := 0
          lastLoginAt := none
          loginAttempts := 0
          lastLoginIP := ""
          passwordChangeAt := 0
          lockedUntil := none }
      match create s now newUserId u0 with
      | .error _ => (.error (newDatabaseError "failed to create user"), s)
      | .ok s1 =>
        let user := beforeCreate now newUserId u0
        let access := generateAccessToken j now user.id user.email user.userType
        let s2 := saveRefreshToken s1 newTokId
          { id := ""
            userId := user.id
            token := freshRefresh
            expiresAt := now + j.refreshTokenTTL
            createdAt := now
            isRevoked := false
            deviceId := ""
            userAgent := ""
            ip := "" }
        (.ok
          { user := user.toResponse
            accessToken := access
            refreshToken := freshRefresh
            expiresAt := now + j.accessTokenTTL
            tokenType := "Bearer" }, s2)
    | some user =>
      let s1 := if user.loginAttempts > 0 then resetLoginAttempts s user.id else s
      let s2 := updateLoginInfo s1 user.id now meta.ipAddress
      let access := generateAccessToken j now user.id user.email user.userType
      let s3 := saveRefreshToken s2 newTokId
        { id := ""
          userId := user.id
          token := freshRefresh
          expiresAt := now + j.refreshTokenTTL
          createdAt := now
          isRevoked := false
          deviceId := ""
          userAgent := ""
          ip := "" }
      (.ok
        { user := user.toResponse
          accessToken := access
          refreshToken := freshRefresh
          expiresAt := now + j.accessTokenTTL
          tokenType := "Bearer" }, s3)

/-- Go: AuthService.RefreshToken (service.go): find the stored token by
    value; reject revoked, then expired; revoke the presented token; load
    the owning user (NotFound when the record vanished); issue and persist
    the replacement pair bound to the request metadata. -/
def refreshSession (j : JWTUtils) (s : Store) (now : Time) (reqToken : String)
    (meta : RequestMetadata) (freshRefresh newTokId : String) :
    Except AppError RefreshTokenResponse × Store :=
  match findRefreshToken s reqToken with
  | .error e => (.error e, s)
  | .ok storedToken =>
    if storedToken.isRevoked then
      (.error (newUnauthorizedError "refresh token has been revoked"), s)
    else if now > storedToken.expiresAt then
      (.error (newUnauthorizedError "refresh token has expired"), s)
    else
      let s1 := revokeRefreshToken s storedToken.id
      match getByID s1 storedToken.userId with
      | none => (.error (newNotFoundError "user associated with token not found"), s1)
      | some user =>
        let access := generateAccessToken j now user.id user.email user.userType
        let s2 := saveRefreshToken s1 newTokId
          { id := ""
            userId := user.id
            token := freshRefresh
            expiresAt := now + j.refreshTokenTTL
            createdAt := now
            isRevoked := false
            deviceId := meta.deviceID
            userAgent := meta.userAgent
            ip := meta.ipAddress }
        (.ok
          { accessToken := access
            refreshToken := freshRefresh
            expiresAt := now + j.accessTokenTTL }, s2)

/-- Go: AuthService.Logout (service.go): parses the request's refresh-token
    string with primitive.ObjectIDFromHex and, when that succeeds, revokes
    the document with that _id. -/
def logout (s : Store) (reqRefreshToken : String) : Except AppError Unit × Store :=
  match objectIDFromHex reqRefreshToken with
  | none =>
    (.error (newValidationError "invalid refresh token id"
      [("refresh_token", reqRefreshToken)]), s)
  | some tokenID => (.ok (), revokeRefreshToken s tokenID)

/- ## Store transitions available to later requests -/

/-- Every store mutation any service operation performs is one of the
    repository primitives; a sequence of these covers every store a later
    request can observe. -/
inductive RepoOp where
  | createOp (now : Time) (newId : String) (u : UserRec)
  | saveTokenOp (newId : String) (t : RefreshTokenRec)
  | revokeTokenOp (tid : String)
  | incAttemptsOp (uid : String)
  | resetAttemptsOp (uid : String)
  | lockAccountOp (uid : String) (now duration : Time)
  | updateLoginOp (uid : String) (now : Time) (ip : String)
  | updatePasswordOp (uid : String) (hash : String)

def applyRepoOp (s : Store) : RepoOp → Store
  | .createOp now newId u =>
    match create s now newId u with
    | .ok s2 => s2
    | .error _ => s
  | .saveTokenOp newId t => saveRefreshToken s newId t
  | .revokeTokenOp tid => revokeRefreshToken s tid
  | .incAttemptsOp uid => (incrementLoginAttempts s uid).2
  | .resetAttemptsOp uid => resetLoginAttempts s uid
  | .lockAccountOp uid now d => lockUserAccount s uid now d
  | .updateLoginOp uid now ip => updateLoginInfo s uid now ip
  | .updatePasswordOp uid hash => updatePassword s uid hash

def applyRepoOps (s : Store) (ops : List RepoOp) : Store :=
  ops.foldl applyRepoOp s

/- ## Helper lemmas about the list-level store primitives -/

theorem find?_updateFirstUser (uid : String) (f : UserRec → UserRec)
    (hid : ∀ v, (f v).id = v.id) :
    ∀ (l : List UserRec) (u : UserRec),
      l.find? (fun x => x.id == uid) = some u →
      (updateFirstUser uid f l).find? (fun x => x.id == uid) = some (f u)
  | [], u, h => by simp [List.find?] at h
  | x :: rest, u, h => by
    by_cases hx : (x.id == uid) = true
    · simp only [List.find?, hx] at h
      obtain rfl : x = u := Option.some.inj h
      have hfid : ((f x).id == uid) = true := by rw [hid x]; exact hx
      simp [updateFirstUser, hx, List.find?, hfid]
    · have hxf : (x.id == uid) = false := by simpa using hx
      simp only [List.find?, hxf] at h
      simp only [updateFirstUser, hxf, Bool.false_eq_true, if_false, List.find?]
      exact find?_updateFirstUser uid f hid rest u h

theorem find?_of_nodup_mem :
    ∀ (l : List UserRec) (u : UserRec),
      (l.map (fun x => x.id)).Nodup → u ∈ l →
      l.find? (fun x => x.id == u.id) = some u
  | [], u, _, hm => by simp at hm
  | x :: rest, u, hn, hm => by
    rcases List.mem_cons.mp hm with hxu | hmem
    · subst hxu
      simp [List.find?]
    · have hne : x.id ≠ u.id := by
        intro hcontra
        have hxin : x.id ∈ rest.map (fun x => x.id) := by
          rw [hcontra]
          exact List.mem_map.mpr ⟨u, hmem, rfl⟩
        exact (List.nodup_cons.mp (by simpa using hn)).1 hxin
      have hxf : (x.id == u.id) = false := by simpa using hne
      simp only [List.find?, hxf]
      exact find?_of_nodup_mem rest u (List.nodup_cons.mp (by simpa using hn)).2 hmem

theorem find?_append_left {α : Type} (p : α → Bool) :
    ∀ (l1 l2 : List α) (a : α), l1.find? p = some a → (l1 ++ l2).find? p = some a
  | [], _, a, h => by simp [List.find?] at h
  | x :: rest, l2, a, h => by
    by_cases hx : p x = true
    · simp only [List.find?, hx] at h
      simpa [List.cons_append, List.find?, hx] using h
    · have hxf : p x = false := by simpa using hx
      simp only [List.find?, hxf] at h
      simp only [List.cons_append, List.find?, hxf]
      exact find?_append_left p rest l2 a h

theorem find?_token_revokeFirst (t : String) :
    ∀ (l : List RefreshTokenRec) (rt : RefreshTokenRec),
      (l.map (fun r => r.id)).Nodup →
      l.find? (fun r => r.token == t) = some rt →
      (revokeFirstToken rt.id l).find? (fun r => r.token == t)
        = some { rt with isRevoked := true }
  | [], rt, _, h => by simp [List.find?] at h
  | x :: rest, rt, hn, h => by
    by_cases hx : (x.token == t) = true
    · simp only [List.find?, hx] at h
      obtain rfl : x = rt := Option.some.inj h
      simp [revokeFirstToken, List.find?, hx]
    · have hxf : (x.token == t) = false := by simpa using hx
      simp only [List.find?, hxf] at h
      have hmem : rt ∈ rest := List.mem_of_find?_eq_some h
      have hne : x.id ≠ rt.id := by
        intro hcontra
        have hxin : x.id ∈ rest.map (fun r => r.id) := by
          rw [hcontra]
          exact List.mem_map.mpr ⟨rt, hmem, rfl⟩
        exact (List.nodup_cons.mp (by simpa using hn)).1 hxin
      have hidf : (x.id == rt.id) = false := by simpa using hne
      simp only [revokeFirstToken, hidf, Bool.false_eq_true, if_false, List.find?, hxf]
      exact find?_token_revokeFirst t rest rt
        (List.nodup_cons.mp (by simpa using hn)).2 h

theorem find?_revoked_revokeFirst (t tid : String) :
    ∀ (l : List RefreshTokenRec) (rt : RefreshTokenRec),
      l.find? (fun r => r.token == t) = some rt →
      rt.isRevoked = true →
      ∃ rt2, (revokeFirstToken tid l).find? (fun r => r.token == t) = some rt2 ∧
        rt2.isRevoked = true
  | [], rt, h, _ => by simp [List.find?] at h
  | x :: rest, rt, h, hr => by
    by_cases hid : (x.id == tid) = true
    · by_cases hx : (x.token == t) = true
      · simp only [List.find?, hx] at h
        obtain rfl : x = rt := Option.some.inj h
        exact ⟨{ x with isRevoked := true },
          by simp [revokeFirstToken, hid, List.find?, hx], rfl⟩
      · have hxf : (x.token == t) = false := by simpa using hx
        simp only [List.find?, hxf] at h
        exact ⟨rt, by simp only [revokeFirstToken, hid, if_true, List.find?, hxf]; exact h, hr⟩
    · have hidf : (x.id == tid) = false := by simpa using hid
      by_cases hx : (x.token == t) = true
      · simp only [List.find?, hx] at h
        obtain rfl : x = rt := Option.some.inj h
        exact ⟨x,
          by simp only [revokeFirstToken, hidf, Bool.false_eq_true, if_false, List.find?, hx], hr⟩
      · have hxf : (x.token == t) = false := by simpa using hx
        simp only [List.find?, hxf] at h
        obtain ⟨rt2, hfind2, hr2⟩ := find?_revoked_revokeFirst t tid rest rt h hr
        exact ⟨rt2,
          by
            simp only [revokeFirstToken, hidf, Bool.false_eq_true, if_false, List.find?, hxf]
            exact hfind2, hr2⟩

/- ## The consumed-token invariant behind single-use rotation -/

/-- The refresh-token value t has been consumed: the document FindOne
    returns for it is revoked. -/
def tokenConsumed (s : Store) (t : String) : Prop :=
  ∃ rt, s.refreshTokens.find? (fun r => r.token == t) = some rt ∧ rt.isRevoked = true

theorem tokenConsumed_applyRepoOp (s : Store) (t : String) (o : RepoOp)
    (h : tokenConsumed s t) : tokenConsumed (applyRepoOp s o) t := by
  obtain ⟨rt, hf, hr⟩ := h
  cases o with
  | createOp now newId u =>
    have htoks : (applyRepoOp s (.createOp now newId u)).refreshTokens
        = s.refreshTokens := by
      simp only [applyRepoOp, create]
      split
      · rename_i x s2 heq
        split at heq
        · simp at heq
        · injection heq with h2
          rw [← h2]
      · rfl
    exact ⟨rt, by rw [htoks]; exact hf, hr⟩
  | saveTokenOp newId tk =>
    exact ⟨rt, find?_append_left _ _ _ _ hf, hr⟩
  | revokeTokenOp tid =>
    exact find?_revoked_revokeFirst t tid s.refreshTokens rt hf hr
  | incAttemptsOp uid =>
    have htoks : (applyRepoOp s (.incAttemptsOp uid)).refreshTokens
        = s.refreshTokens := by
      simp only [applyRepoOp, incrementLoginAttempts]
      split <;> rfl
    exact ⟨rt, by rw [htoks]; exact hf, hr⟩
  | resetAttemptsOp uid => exact ⟨rt, hf, hr⟩
  | lockAccountOp uid now d => exact ⟨rt, hf, hr⟩
  | updateLoginOp uid now ip => exact ⟨rt, hf, hr⟩
  | updatePasswordOp uid hash => exact ⟨rt, hf, hr⟩

theorem tokenConsumed_applyRepoOps (t : String) :
    ∀ (ops : List RepoOp) (s : Store),
      tokenConsumed s t → tokenConsumed (applyRepoOps s ops) t
  | [], _, h => h
  | o :: ops, s, h =>
    tokenConsumed_applyRepoOps t ops (applyRepoOp s o)
      (tokenConsumed_applyRepoOp s t o h)

/-- A consumed token is rejected by RefreshToken with the revoked message and
    the store is left untouched. -/
theorem refreshSession_of_consumed (j : JWTUtils) (s : Store) (now : Time)
    (t : String) (meta : RequestMetadata) (fr ni : String)
    (h : tokenConsumed s t) :
    refreshSession j s now t meta fr ni
      = (.error (newUnauthorizedError "refresh token has been revoked"), s) := by
  obtain ⟨rt, hf, hr⟩ := h
  simp only [refreshSession, findRefreshToken, hf, hr, if_true]

/-- A successful RefreshToken call leaves the presented token consumed
    (requires the _id uniqueness the store's primary index guarantees). -/
theorem refreshSession_ok_consumed (j : JWTUtils) (s : Store) (now : Time)
    (t : String) (meta : RequestMetadata) (fr ni : String)
    (hn : (s.refreshTokens.map (fun r => r.id)).Nodup)
    (resp : RefreshTokenResponse) (s2 : Store)
    (h : refreshSession j s now t meta fr ni = (.ok resp, s2)) :
    tokenConsumed s2 t := by
  unfold refreshSession findRefreshToken at h
  cases hfind : s.refreshTokens.find? (fun r => r.token == t) with
  | none => rw [hfind] at h; simp at h
  | some rt =>
    rw [hfind] at h
    dsimp at h
    by_cases hrev : rt.isRevoked = true
    · simp [hrev] at h
    · have hrevf : rt.isRevoked = false := by simpa using hrev
      rw [hrevf] at h
      simp only [Bool.false_eq_true, if_false] at h
      by_cases hexp : now > rt.expiresAt
      · simp [hexp] at h
      · rw [if_neg hexp] at h
        cases hu : getByID (revokeRefreshToken s rt.id) rt.userId with
        | none => rw [hu] at h; simp at h
        | some user =>
          rw [hu] at h
          have hs2 : s2 = saveRefreshToken (revokeRefreshToken s rt.id) ni
              { id := ""
                userId := user.id
                token := fr
                expiresAt := now + j.refreshTokenTTL
                createdAt := now
                isRevoked := false
                deviceId := meta.deviceID
                userAgent := meta.userAgent
                ip := meta.ipAddress } := by
            have := congrArg Prod.snd h
            simpa using this.symm
          subst hs2
          have hrevoked := find?_token_revokeFirst t s.refreshTokens rt hn hfind
          exact ⟨{ rt with isRevoked := true },
            find?_append_left _ _ _ _ hrevoked, rfl⟩

/- ## Claim C1 -/

/-- C1: for every RefreshSession call, a missing stored refresh token gives
    Unauthorized; an already-revoked one gives Unauthorized; one past its
    expiry gives Unauthorized; otherwise the presented token is revoked
    before the replacement is issued, so once RefreshSession succeeds with
    token t, every later RefreshSession with t (after any further sequence
    of repository operations) returns Unauthorized (revoked); and when the
    owning user record is missing after revocation the result is NotFound. -/
theorem refreshSession_rotation_spec (j : JWTUtils) (s : Store) (now : Time)
    (t : String) (meta : RequestMetadata) (fr ni : String)
    (hn : (s.refreshTokens.map (fun r => r.id)).Nodup) :
    (s.refreshTokens.find? (fun r => r.token == t) = none →
      refreshSession j s now t meta fr ni
        = (.error (newUnauthorizedError "refresh token not found"), s)) ∧
    (∀ rt, s.refreshTokens.find? (fun r => r.token == t) = some rt →
      rt.isRevoked = true →
      refreshSession j s now t meta fr ni
        = (.error (newUnauthorizedError "refresh token has been revoked"), s)) ∧
    (∀ rt, s.refreshTokens.find? (fun r => r.token == t) = some rt →
      rt.isRevoked = false → now > rt.expiresAt →
      refreshSession j s now t meta fr ni
        = (.error (newUnauthorizedError "refresh token has expired"), s)) ∧
    (∀ rt, s.refreshTokens.find? (fun r => r.token == t) = some rt →
      rt.isRevoked = false → ¬ now > rt.expiresAt →
      getByID (revokeRefreshToken s rt.id) rt.userId = none →
      refreshSession j s now t meta fr ni
        = (.error (newNotFoundError "user associated with token not found"),
           revokeRefreshToken s rt.id) ∧
      tokenConsumed (revokeRefreshToken s rt.id) t) ∧
    (∀ resp s2, refreshSession j s now t meta fr ni = (.ok resp, s2) →
      ∀ (ops : List RepoOp) (j2 : JWTUtils) (now2 : Time)
        (meta2 : RequestMetadata) (fr2 ni2 : String),
        refreshSession j2 (applyRepoOps s2 ops) now2 t meta2 fr2 ni2
          = (.error (newUnauthorizedError "refresh token has been revoked"),
             applyRepoOps s2 ops)) := by
  refine ⟨?_, ?_, ?_, ?_, ?_⟩
  · intro hnone
    simp only [refreshSession, findRefreshToken, hnone]
  · intro rt hfind hrev
    exact refreshSession_of_consumed j s now t meta fr ni ⟨rt, hfind, hrev⟩
  · intro rt hfind hrev hexp
    simp only [refreshSession, findRefreshToken, hfind, hrev, Bool.false_eq_true,
      if_false, if_pos hexp]
  · intro rt hfind hrev hexp hu
    constructor
    · simp only [refreshSession, findRefreshToken, hfind, hrev, Bool.false_eq_true,
        if_false, if_neg hexp, hu]
    · exact ⟨{ rt with isRevoked := true },
        find?_token_revokeFirst t s.refreshTokens rt hn hfind, rfl⟩
  · intro resp s2 hok ops j2 now2 meta2 fr2 ni2
    have hcons : tokenConsumed s2 t :=
      refreshSession_ok_consumed j s now t meta fr ni hn resp s2 hok
    exact refreshSession_of_consumed j2 (applyRepoOps s2 ops) now2 t meta2 fr2 ni2
      (tokenConsumed_applyRepoOps t ops s2 hcons)

def jW : JWTUtils := ⟨"secret", 900, 604800⟩

def metaW : RequestMetadata := ⟨"agent", "1.2.3.4", "device"⟩

def userW : UserRec :=
  { id := "u1"
    email := "a@x.com"
    password := bcryptHash "Passw0rd!"
    firstName := "A"
    lastName := "B"
    phone := "5551234"
    userType := "client"
    profileImage := ""
    isActive := true
    isVerified := false
    createdAt := 0
    updatedAt := 0
    lastLoginAt := none
    loginAttempts := 0
    lastLoginIP := ""
    passwordChangeAt := 0
    lockedUntil := none }

def tokW : RefreshTokenRec :=
  { id := "t1"
    userId := "u1"
    token := "tokvalue"
    expiresAt := 1000
    createdAt := 0
    isRevoked := false
    deviceId := "device"
    userAgent := "agent"
    ip := "1.2.3.4" }

def storeW : Store := ⟨[userW], [tokW]⟩

def storeW2 : Store := (refreshSession jW storeW 50 "tokvalue" metaW "newtok" "t2").2

def respW : RefreshTokenResponse :=
  { accessToken := ⟨⟨"u1", "a@x.com", "client", 950, 50⟩, "secret"⟩
    refreshToken := "newtok"
    expiresAt := 950 }

/-- C1 witness: a concrete successful rotation, after which replaying the
    same token value is rejected as revoked. -/
theorem refreshSession_rotation_spec_witness :
    refreshSession jW (applyRepoOps storeW2 []) 60 "tokvalue" metaW "f2" "t3"
      = (.error (newUnauthorizedError "refresh token has been revoked"),
         applyRepoOps storeW2 []) := by
  have h := refreshSession_rotation_spec jW storeW 50 "tokvalue" metaW "newtok" "t2"
    (by decide)
  exact h.2.2.2.2 respW storeW2 (by rfl) [] jW 60 metaW "f2" "t3"

/- ## Claim C2 -/

/-- C2: in AuthenticateUser the lock status is checked before the supplied
    password is verified, so while now is before locked_until the call
    returns Forbidden (for any password, correct or not) and leaves the
    store untouched; a failed verification increments the login-attempt
    counter through the store's single atomic increment-and-return
    primitive, and when the returned counter reaches the threshold 5 the
    account is locked until now + 15 minutes; a successful verification
    resets a nonzero counter to 0. -/
theorem authenticateUser_lockout_spec (j : JWTUtils) (s : Store) (now : Time)
    (email pw : String) (meta : RequestMetadata) (fr ni : String) (u : UserRec)
    (hn : (s.users.map (fun x => x.id)).Nodup)
    (hu : getByEmail s email = some u) :
    (∀ tu, u.lockedUntil = some tu → now < tu →
      authenticateUser j s now email pw meta fr ni
        = (.error (newPermissionError "account is locked, please try again later"), s)) ∧
    (lockActive u now = false → bcryptCompare u.password pw = false →
      (authenticateUser j s now email pw meta fr ni).1
        = .error (newUnauthorizedError "invalid email or password") ∧
      getByID (authenticateUser j s now email pw meta fr ni).2 u.id
        = some (if u.loginAttempts + 1 ≥ maxLoginAttempts then
            { u with loginAttempts := u.loginAttempts + 1,
                     lockedUntil := some (now + lockoutDuration) }
          else { u with loginAttempts := u.loginAttempts + 1 })) ∧
    (lockActive u now = false → bcryptCompare u.password pw = true →
      u.loginAttempts > 0 →
      getByID (authenticateUser j s now email pw meta fr ni).2 u.id
        = some { u with loginAttempts := 0, lockedUntil := none, lastLoginAt := some now, lastLoginIP := meta.ipAddress }) := by
  have hmem : u ∈ s.users := List.mem_of_find?_eq_some hu
  have hfindid : s.users.find? (fun x => x.id == u.id) = some u :=
    find?_of_nodup_mem s.users u hn hmem
  refine ⟨?_, ?_, ?_⟩
  · intro tu htu hlt
    have hlock : lockActive u now = true := by simp [lockActive, htu, hlt]
    simp [authenticateUser, hu, hlock]
  · intro hlockf hp
    have hnl : ¬ (lockActive u now = true) := by simp [hlockf]
    have hinc : incrementLoginAttempts s u.id
        = (some (u.loginAttempts + 1),
           { s with users := (updateFirstUser u.id
               (fun v => { v with loginAttempts := v.loginAttempts + 1 }) s.users) }) := by
      simp [incrementLoginAttempts, hfindid]
    have h1 := find?_updateFirstUser u.id
      (fun v => { v with loginAttempts := v.loginAttempts + 1 }) (fun v => rfl)
      s.users u hfindid
    by_cases hth : u.loginAttempts + 1 ≥ maxLoginAttempts
    · have hmain : authenticateUser j s now email pw meta fr ni
          = (.error (newUnauthorizedError "invalid email or password"),
             lockUserAccount
               { s with users := (updateFirstUser u.id
                   (fun v => { v with loginAttempts := v.loginAttempts + 1 }) s.users) }
               u.id now lockoutDuration) := by
        simp only [authenticateUser, hu]
        rw [if_neg hnl, if_pos hp, hinc]
        simp only [Option.getD_some]
        rw [if_pos hth]
      rw [hmain]
      refine ⟨rfl, ?_⟩
      have h2 := find?_updateFirstUser u.id
        (fun v => { v with lockedUntil := some (now + lockoutDuration) }) (fun v => rfl)
        (updateFirstUser u.id
          (fun v => { v with loginAttempts := v.loginAttempts + 1 }) s.users)
        { u with loginAttempts := u.loginAttempts + 1 } h1
      rw [if_pos hth]
      exact h2
    · have hmain : authenticateUser j s now email pw meta fr ni
          = (.error (newUnauthorizedError "invalid email or password"),
             { s with users := (updateFirstUser u.id
                 (fun v => { v with loginAttempts := v.loginAttempts + 1 }) s.users) }) := by
        simp only [authenticateUser, hu]
        rw [if_neg hnl, if_pos hp, hinc]
        simp only [Option.getD_some]
        rw [if_neg hth]
      rw [hmain]
      refine ⟨rfl, ?_⟩
      rw [if_neg hth]
      exact h1
  · intro hlockf hc hpos
    have hnl : ¬ (lockActive u now = true) := by simp [hlockf]
    have hnp : ¬ (bcryptCompare u.password pw = false) := by simp [hc]
    have hmain : (authenticateUser j s now email pw meta fr ni).2
        = saveRefreshToken
            (updateLoginInfo (resetLoginAttempts s u.id) u.id now meta.ipAddress) ni
            { id := ""
              userId := u.id
              token := fr
              expiresAt := now + j.refreshTokenTTL
              createdAt := now
              isRevoked := false
              deviceId := meta.deviceID
              userAgent := meta.userAgent
              ip := meta.ipAddress } := by
      simp only [authenticateUser, hu]
      rw [if_neg hnl, if_neg hnp, if_pos hpos]
    rw [hmain]
    have h1 := find?_updateFirstUser u.id
      (fun v => { v with loginAttempts := 0, lockedUntil := none }) (fun v => rfl)
      s.users u hfindid
    have h2 := find?_updateFirstUser u.id
      (fun v => { v with lastLoginAt := some now, lastLoginIP := meta.ipAddress })
      (fun v => rfl)
      (updateFirstUser u.id
        (fun v => { v with loginAttempts := 0, lockedUntil := none }) s.users)
      { u with loginAttempts := 0, lockedUntil := none } h1
    exact h2

/-- C2 witness: a user at 4 prior failed attempts fails a 5th time with a
    wrong password and is locked until now + 900 seconds. -/
theorem authenticateUser_lockout_spec_witness :
    (authenticateUser jW
        ⟨[{ userW with loginAttempts := 4 }], []⟩ 100 "a@x.com" "wrong" metaW "f" "t9").1
      = .error (newUnauthorizedError "invalid email or password") ∧
    getByID (authenticateUser jW
        ⟨[{ userW with loginAttempts := 4 }], []⟩ 100 "a@x.com" "wrong" metaW "f" "t9").2 "u1"
      = some { userW with loginAttempts := 5, lockedUntil := some 1000 } := by
  have h := authenticateUser_lockout_spec jW
    ⟨[{ userW with loginAttempts := 4 }], []⟩ 100 "a@x.com" "wrong" metaW "f" "t9"
    { userW with loginAttempts := 4 } (by decide) (by rfl)
  have h2 := h.2.1 (by rfl) (by decide)
  refine ⟨h2.1, ?_⟩
  have h3 := h2.2
  rw [if_pos (by decide)] at h3
  exact h3

/- ## Claim C5 -/

/-- C5: a Login with a non-existent email and a Login with an existing email
    but a wrong password return the very same Unauthorized error value, so
    the user-visible message is textually identical ("invalid email or
    password") and the two failure causes are indistinguishable. -/
theorem authenticate_enumeration_indistinguishable
    (j1 j2 : JWTUtils) (s1 s2 : Store) (now1 now2 : Time)
    (email1 email2 pw1 pw2 : String) (meta1 meta2 : RequestMetadata)
    (f1 f2 i1 i2 : String) (u : UserRec)
    (h1 : getByEmail s1 email1 = none)
    (h2 : getByEmail s2 email2 = some u)
    (hl : lockActive u now2 = false)
    (hp : bcryptCompare u.password pw2 = false) :
    ∃ e : AppError,
      (authenticateUser j1 s1 now1 email1 pw1 meta1 f1 i1).1 = .error e ∧
      (authenticateUser j2 s2 now2 email2 pw2 meta2 f2 i2).1 = .error e ∧
      e.etype = ErrorTypeUnauthorized ∧ e.message = "invalid email or password" := by
  refine ⟨newUnauthorizedError "invalid email or password", ?_, ?_, rfl, rfl⟩
  · simp [authenticateUser, h1]
  · have hnl : ¬ (lockActive u now2 = true) := by simp [hl]
    simp only [authenticateUser, h2]
    rw [if_neg hnl, if_pos hp]

/-- C5 witness: concrete unknown-email and wrong-password failures carry the
    same error value. -/
theorem authenticate_enumeration_indistinguishable_witness :
    ∃ e : AppError,
      (authenticateUser jW ⟨[], []⟩ 0 "nobody@x.com" "pw" metaW "f" "i").1 = .error e ∧
      (authenticateUser jW ⟨[userW], []⟩ 0 "a@x.com" "wrong" metaW "f" "i").1 = .error e ∧
      e.etype = ErrorTypeUnauthorized ∧ e.message = "invalid email or password" :=
  authenticate_enumeration_indistinguishable jW jW ⟨[], []⟩ ⟨[userW], []⟩ 0 0
    "nobody@x.com" "a@x.com" "pw" "wrong" metaW metaW "f" "f" "i" "i" userW
    (by rfl) (by rfl) (by rfl) (by decide)

/- ## Claim C6 (corrected) -/

def userC6 : UserRec := { userW with loginAttempts := 3, lockedUntil := some 1000 }

/-- C6 counterexample: the claim says no operation ever clears the
    locked_until timestamp, but the repository's ResetLoginAttempts does
    exactly that (Mongo unset of locked_until together with the counter
    reset): on a user locked until 1000 it leaves locked_until = none. -/
theorem resetLoginAttempts_clears_lock_counterexample :
    userC6.lockedUntil = some 1000 ∧
    getByID (resetLoginAttempts ⟨[userC6], []⟩ "u1") "u1"
      = some { userC6 with loginAttempts := 0, lockedUntil := none } := by
  exact ⟨rfl, rfl⟩

/-- C6 amended: ResetLoginAttempts clears locked_until (it unsets the field
    while zeroing the counter), so an unlock transition does exist in the
    store layer; but password authentication never reaches it while a lock
    is active: while now is before locked_until, AuthenticateUser returns
    Forbidden and leaves the store completely unchanged, so for password
    logins an active lock still ends solely because the time comparison
    now > until, re-evaluated fresh on every attempt, stops holding. -/
theorem lock_clearing_amended (s : Store) (uid : String) (u : UserRec)
    (j : JWTUtils) (now : Time) (email pw : String) (meta : RequestMetadata)
    (fr ni : String) (tu : Time)
    (hfind : s.users.find? (fun x => x.id == uid) = some u) :
    getByID (resetLoginAttempts s uid) uid
      = some { u with loginAttempts := 0, lockedUntil := none } ∧
    (getByEmail s email = some u → u.lockedUntil = some tu → now < tu →
      authenticateUser j s now email pw meta fr ni
        = (.error (newPermissionError "account is locked, please try again later"), s)) := by
  constructor
  · exact find?_updateFirstUser uid
      (fun v => { v with loginAttempts := 0, lockedUntil := none }) (fun v => rfl)
      s.users u hfind
  · intro hu htu hlt
    have hlock : lockActive u now = true := by simp [lockActive, htu, hlt]
    simp [authenticateUser, hu, hlock]

/-- C6 amended witness: a concrete locked user is rejected with Forbidden and
    the store is untouched; resetLoginAttempts on the same store clears the
    lock. -/
theorem lock_clearing_amended_witness :
    getByID (resetLoginAttempts ⟨[{ userW with lockedUntil := some 500 }], []⟩ "u1") "u1"
      = some { userW with loginAttempts := 0, lockedUntil := none } ∧
    authenticateUser jW ⟨[{ userW with lockedUntil := some 500 }], []⟩ 100
        "a@x.com" "Passw0rd!" metaW "f" "i"
      = (.error (newPermissionError "account is locked, please try again later"),
         ⟨[{ userW with lockedUntil := some 500 }], []⟩) := by
  have h := lock_clearing_amended ⟨[{ userW with lockedUntil := some 500 }], []⟩ "u1"
    { userW with lockedUntil := some 500 } jW 100 "a@x.com" "Passw0rd!" metaW "f" "i" 500
    (by rfl)
  exact ⟨h.1, h.2 (by rfl) rfl (by decide)⟩

/- ## Claim C7 -/

/-- C7: the error-kind to transport-status mapping is the fixed total
    function of the claim (Validation and BadRequest to InvalidArgument,
    NotFound to NotFound, Conflict to AlreadyExists with machine code
    CONFLICT_ERROR, Unauthorized to Unauthenticated, Forbidden to
    PermissionDenied, RateLimit to ResourceExhausted, Database, Internal
    and every unrecognized kind to Internal), and only the Database and
    Internal kinds are logged at error severity, every other kind at
    warning. -/
theorem errorMapping_spec :
    mapToGrpcCode ErrorTypeValidation = GrpcCode.invalidArgument ∧
    mapToGrpcCode ErrorTypeBadRequest = GrpcCode.invalidArgument ∧
    mapToGrpcCode ErrorTypeNotFound = GrpcCode.notFound ∧
    mapToGrpcCode ErrorTypeConflict = GrpcCode.alreadyExists ∧
    (∀ m : String, (newConflictError m).code = "CONFLICT_ERROR") ∧
    mapToGrpcCode ErrorTypeUnauthorized = GrpcCode.unauthenticated ∧
    mapToGrpcCode ErrorTypeForbidden = GrpcCode.permissionDenied ∧
    mapToGrpcCode ErrorTypeRateLimit = GrpcCode.resourceExhausted ∧
    mapToGrpcCode ErrorTypeDatabase = GrpcCode.internal ∧
    mapToGrpcCode ErrorTypeInternal = GrpcCode.internal ∧
    (∀ t : ErrorType, t ≠ ErrorTypeValidation → t ≠ ErrorTypeNotFound →
      t ≠ ErrorTypeConflict → t ≠ ErrorTypeUnauthorized → t ≠ ErrorTypeForbidden →
      t ≠ ErrorTypeBadRequest → t ≠ ErrorTypeRateLimit → t ≠ ErrorTypeDatabase →
      mapToGrpcCode t = GrpcCode.internal) ∧
    (∀ t : ErrorType, logSeverity t = LogLevel.error ↔
      (t = ErrorTypeInternal ∨ t = ErrorTypeDatabase)) := by
  refine ⟨rfl, rfl, rfl, rfl, fun m => rfl, rfl, rfl, rfl, rfl, rfl, ?_, ?_⟩
  · intro t h0 h1 h2 h3 h4 h5 h6 h8
    simp [mapToGrpcCode, h0, h1, h2, h3, h4, h5, h6, h8]
  · intro t
    constructor
    · intro h
      by_contra hc
      push_neg at hc
      simp [logSeverity, hc.1, hc.2] at h
    · intro h
      rcases h with h | h <;> simp [logSeverity, h]

/-- C7 witness: an out-of-range kind maps to Internal; the Database kind is
    logged at error severity. -/
theorem errorMapping_spec_witness :
    mapToGrpcCode 42 = GrpcCode.internal ∧
    (logSeverity 8 = LogLevel.error ↔ (8 = ErrorTypeInternal ∨ 8 = ErrorTypeDatabase)) := by
  constructor
  · exact errorMapping_spec.2.2.2.2.2.2.2.2.2.2.1 42 (by decide) (by decide) (by decide)
      (by decide) (by decide) (by decide) (by decide) (by decide)
  · exact errorMapping_spec.2.2.2.2.2.2.2.2.2.2.2 8

/- ## Claim C8 -/

/-- C8: for every subject id, email and user type, GenerateAccessToken
    followed by ValidateAccessToken before the access-token TTL elapses,
    with the same signing secret, succeeds and recovers exactly the same
    subject id, email and user type. -/
theorem jwt_roundtrip_spec (j : JWTUtils) (now tv : Time)
    (uid email utype : String) (h : tv < now + j.accessTokenTTL) :
    validateAccessToken j tv (generateAccessToken j now uid email utype)
      = .ok { userID := uid, email := email, userType := utype, expiresAt := now + j.accessTokenTTL, issuedAt := now } := by
  simp [validateAccessToken, generateAccessToken, h]

/-- C8 witness: a concrete immediate round trip. -/
theorem jwt_roundtrip_spec_witness :
    validateAccessToken jW 10 (generateAccessToken jW 10 "u1" "a@x.com" "client")
      = .ok { userID := "u1", email := "a@x.com", userType := "client", expiresAt := 910, issuedAt := 10 } :=
  jwt_roundtrip_spec jW 10 10 "u1" "a@x.com" "client" (by decide)

/- ## Claim C3 (corrected) -/

/-- C3 counterexample: with a backend reporting a uniqueness Conflict on
    every attempt, the user-creation persistence step invokes the backend 4
    times (the initial attempt plus 3 retries) before returning the
    Conflict: the claimed bound of at most 3 attempts is exceeded, and the
    Conflict is retried (a policy that never retries Conflict would stop
    after a single invocation). -/
theorem createWithRetry_counterexample :
    createWithRetry
        (fun _ => some (newConflictError "user with email a@x.com already exists"))
      = (some (newConflictError "user with email a@x.com already exists"), 4) := rfl

theorem retryGo_count_le (op : Nat → Option AppError) :
    ∀ (r i : Nat), (retryGo op i r).2 ≤ i + r + 1
  | 0, i => by
    cases h : op i <;> simp [retryGo, h]
  | r + 1, i => by
    cases h : op i with
    | none => simp [retryGo, h]
    | some e =>
      have ih := retryGo_count_le op r (i + 1)
      simp only [retryGo, h]
      omega

theorem retryGo_const (op : Nat → Option AppError) (e : AppError)
    (h : ∀ i, op i = some e) : ∀ (r i : Nat), retryGo op i r = (some e, i + r + 1)
  | 0, i => by simp [retryGo, h i]
  | r + 1, i => by
    simp only [retryGo, h i]
    rw [retryGo_const op e h r (i + 1)]
    congr 1
    omega

/-- C3 amended: the user-creation persistence step runs under backoff.Retry
    with WithMaxRetries(NewExponentialBackOff(), 3): at most 3 retries AFTER
    the initial attempt, i.e. at most 4 backend invocations in total, with
    exponential backoff between them; the loop stops at the first success;
    and it retries EVERY failure alike — in particular a uniqueness Conflict
    is retried until the retry budget is exhausted and only recognized as a
    Conflict after the loop (nothing is wrapped in backoff.Permanent). -/
theorem createWithRetry_amended (op : Nat → Option AppError) :
    (createWithRetry op).2 ≤ 4 ∧
    (op 0 = none → createWithRetry op = (none, 1)) ∧
    (∀ e : AppError, (∀ i, op i = some e) → createWithRetry op = (some e, 4)) := by
  refine ⟨?_, ?_, ?_⟩
  · simpa [createWithRetry] using retryGo_count_le op 3 0
  · intro h0
    simp [createWithRetry, retryGo, h0]
  · intro e h
    simpa [createWithRetry] using retryGo_const op e h 3 0

/-- C3 amended witness: a backend failing with a transient Database fault on
    every attempt is invoked exactly 4 times. -/
theorem createWithRetry_amended_witness :
    createWithRetry (fun _ => some (newDatabaseError "transient store fault"))
      = (some (newDatabaseError "transient store fault"), 4) :=
  (createWithRetry_amended (fun _ => some (newDatabaseError "transient store fault"))).2.2
    (newDatabaseError "transient store fault") (fun _ => rfl)

/- ## Claim C4 (code bug) -/

def claimsC4 : OAuthClaims := ⟨"new@x.com", "N", "U", "pic"⟩

/-- The record the orchestrator hands to repo.Create on the OAuth
    just-in-time path (note IsVerified = true, IsActive = true). -/
def u0C4 : UserRec :=
  { id := ""
    email := "new@x.com"
    password := ""
    firstName := "N"
    lastName := "U"
    phone := ""
    userType := "client"
    profileImage := "pic"
    isActive := true
    isVerified := true
    createdAt := 0
    updatedAt := 0
    lastLoginAt := none
    loginAttempts := 0
    lastLoginIP := ""
    passwordChangeAt := 0
    lockedUntil := none }

/-- What actually reaches the users collection (and the response), after
    BeforeCreate. -/
def uC4 : UserRec := beforeCreate 0 "uid9" u0C4

def respC4 : AuthResponse :=
  { user := uC4.toResponse
    accessToken := generateAccessToken jW 0 "uid9" "new@x.com" "client"
    refreshToken := "fresh9"
    expiresAt := 0 + jW.accessTokenTTL
    tokenType := "Bearer" }

/-- C4 (code bug): OAuthLogin with a verified external token for a never-seen
    email does just-in-time create a local user and return a full token
    bundle, and the orchestrator builds the record with IsVerified = true
    and IsActive = true — but repo.Create runs BeforeCreate, which
    unconditionally overwrites is_verified to false, so the PERSISTED record
    is active yet NOT verified, contradicting the claim. -/
theorem oauthLogin_jit_user_unverified :
    (oauthLogin jW ⟨[], []⟩ 0 (.ok claimsC4) metaW "uid9" "fresh9" "tid9").1
      = .ok respC4 ∧
    getByEmail (oauthLogin jW ⟨[], []⟩ 0 (.ok claimsC4) metaW "uid9" "fresh9" "tid9").2
        "new@x.com" = some uC4 ∧
    u0C4.isVerified = true ∧ uC4.isVerified = false ∧ uC4.isActive = true := by
  exact ⟨rfl, rfl, rfl, rfl, rfl⟩

/- ## Claim C9 (code bug) -/

theorem hexChars_length : ∀ bs : List Nat, (hexChars bs).length = 2 * bs.length
  | [] => rfl
  | b :: bs => by
    simp [hexChars, hexChars_length bs]
    omega

/-- C9 (code bug): Logout feeds the presented refresh-token VALUE to
    primitive.ObjectIDFromHex, which requires exactly 24 hex characters,
    while GenerateRefreshToken issues 64-character values — so Logout
    rejects every token this service issues with a Validation error and
    revokes nothing, contradicting Logout(refreshToken) -> ok and the
    idempotent-revocation claim. -/
theorem logout_rejects_issued_tokens (s : Store) (bytes : List Nat)
    (hlen : bytes.length = 32) :
    logout s (generateRefreshToken bytes)
      = (.error (newValidationError "invalid refresh token id"
          [("refresh_token", generateRefreshToken bytes)]), s) := by
  have hl : (generateRefreshToken bytes).length = 64 := by
    simp [generateRefreshToken, String.length, hexChars_length, hlen]
  have hnone : objectIDFromHex (generateRefreshToken bytes) = none := by
    simp [objectIDFromHex, hl]
  simp [logout, hnone]

/-- C9 witness: the all-zero 32-byte token value is rejected and the store is
    left unchanged (nothing is revoked). -/
theorem logout_rejects_issued_tokens_witness :
    logout ⟨[], [tokW]⟩ (generateRefreshToken (List.replicate 32 0))
      = (.error (newValidationError "invalid refresh token id"
          [("refresh_token", generateRefreshToken (List.replicate 32 0))]), ⟨[], [tokW]⟩) :=
  logout_rejects_issued_tokens ⟨[], [tokW]⟩ (List.replicate 32 0) (by decide)

/- ## Claim C10 -/

/-- C10: every user record persisted through the repository's Create is
    written with is_active = true, is_verified = false, login_attempts = 0
    and created/updated/password-change timestamps all freshly set to now,
    regardless of the values the caller placed in those fields —
    BeforeCreate overwrites them unconditionally before InsertOne. -/
theorem create_beforeCreate_spec (s : Store) (now : Time) (newId : String)
    (u : UserRec)
    (h : s.users.any (fun w => w.email == (beforeCreate now newId u).email) = false) :
    create s now newId u = .ok { s with users := s.users ++ [beforeCreate now newId u] } ∧
    (beforeCreate now newId u).isActive = true ∧
    (beforeCreate now newId u).isVerified = false ∧
    (beforeCreate now newId u).loginAttempts = 0 ∧
    (beforeCreate now newId u).createdAt = now ∧
    (beforeCreate now newId u).updatedAt = now ∧
    (beforeCreate now newId u).passwordChangeAt = now := by
  refine ⟨?_, rfl, rfl, rfl, rfl, rfl, rfl⟩
  simp [create, h]

def uAdv : UserRec :=
  { userW with isActive := false, isVerified := true, loginAttempts := 9, createdAt := 11, updatedAt := 22, passwordChangeAt := 33 }

/-- C10 witness: a caller-supplied record with inverted flags, a nonzero
    counter and stale timestamps is persisted normalized. -/
theorem create_beforeCreate_spec_witness :
    create ⟨[], []⟩ 77 "newid" uAdv
      = .ok ⟨[beforeCreate 77 "newid" uAdv], []⟩ ∧
    (beforeCreate 77 "newid" uAdv).isVerified = false ∧
    (beforeCreate 77 "newid" uAdv).isActive = true ∧
    (beforeCreate 77 "newid" uAdv).loginAttempts = 0 ∧
    (beforeCreate 77 "newid" uAdv).createdAt = 77 := by
  have h := create_beforeCreate_spec ⟨[], []⟩ 77 "newid" uAdv (by rfl)
  exact ⟨h.1, h.2.2.1, h.2.1, h.2.2.2.1, h.2.2.2.2.1⟩

end ReMaster
